import Mathlib

/-!
# Verified embedding of `job_throughput.py`

A shallow embedding of the workload generator, capacity tracker, admission
loop and metrics calculator of `job_throughput.py`, together with theorems
settling the specification's claims about them.

Modelling conventions:
* Python `int` is embedded as `ℤ`; Python `float` arithmetic is embedded as
  exact arithmetic on `ℚ` (the values involved in the claims are small and
  exactly representable, so binary-float rounding does not change any
  comparison or `round` result used below).
* Python's `round` (banker's rounding, half to even) is `pyRound`.
* Fallible code (Python exceptions such as `ZeroDivisionError`) is embedded
  with `Except String`.
* Calls to external collaborators (`sbatch`, `squeue`, `sacct`) are embedded
  by passing the collaborator's response as an explicit argument.
-/

namespace JobThroughput

/-- Python 3's `round` on a real value: round half to even (banker's
rounding), as used by `int(round(...))` in `generate_task_list`. -/
def pyRound (q : ℚ) : ℤ :=
  let f : ℤ := q.floor
  let frac : ℚ := q - f
  if frac < 1/2 then f
  else if 1/2 < frac then f + 1
  else if f % 2 = 0 then f else f + 1

theorem rat_floor_eq_floor (q : ℚ) : q.floor = ⌊q⌋ :=
  (Rat.floor_def' q).trans Rat.floor_def.symm

theorem pyRound_of_lt_half {q : ℚ} {n : ℤ} (h1 : (n : ℚ) ≤ q) (h2 : q < n + 1/2) :
    pyRound q = n := by
  have hf : ⌊q⌋ = n := Int.floor_eq_iff.mpr ⟨h1, by linarith⟩
  simp only [pyRound, rat_floor_eq_floor, hf]
  rw [if_pos (by linarith)]

theorem pyRound_of_gt_half {q : ℚ} {n : ℤ} (h1 : (n : ℚ) + 1/2 < q) (h2 : q < n + 1) :
    pyRound q = n + 1 := by
  have hf : ⌊q⌋ = n := Int.floor_eq_iff.mpr ⟨by linarith, h2⟩
  simp only [pyRound, rat_floor_eq_floor, hf]
  rw [if_neg (by linarith), if_pos (by linarith)]

/-- One duration variant of a job-mix entry: `{"minutes": ..., "ratio": ...}`. -/
structure DurationVariant where
  minutes : ℤ
  ratio : ℚ
deriving DecidableEq, Repr

/-- One job-mix entry from the configuration: `{"nodes": ..., "count": ...,
"durations": [...]}`. -/
structure JobDef where
  nodes : ℤ
  count : ℤ
  durations : List DurationVariant
deriving DecidableEq, Repr

/-- A generated task: the dict `{"nodes": node, "duration": minutes}`
appended to `data` in `generate_task_list`. -/
structure Task where
  nodes : ℤ
  duration : ℤ
deriving DecidableEq, Repr

/-- `total_ratio = sum([x["ratio"] for x in durations])`. -/
def total_ratio (durations : List DurationVariant) : ℚ :=
  (durations.map (fun d => d.ratio)).sum

/-- The loop `for d in durations: curr_counts.append(int(round(count * d["ratio"] / total_ratio)))`.
Python raises `ZeroDivisionError` on the division when `tr` is zero. -/
def ratio_counts (count : ℤ) (tr : ℚ) : List DurationVariant → Except String (List ℤ)
  | [] => Except.ok []
  | d :: rest =>
      if tr = 0 then Except.error "ZeroDivisionError"
      else
        match ratio_counts count tr rest with
        | Except.error e => Except.error e
        | Except.ok cs => Except.ok (pyRound ((count : ℚ) * d.ratio / tr) :: cs)

/-- The `curr_counts` list of `generate_task_list`. -/
def curr_counts (count : ℤ) (durations : List DurationVariant) : Except String (List ℤ) :=
  ratio_counts count (total_ratio durations) durations

/-- One pass of the adjustment loop body of `generate_task_list`:
`idx = i % len(curr_counts)`; increment when `diff > 0`, decrement when
`diff < 0` and the slot is positive. `diff` is the value computed before the
loop and is not recomputed inside it. -/
def adjustStep (diff : ℤ) (cs : List ℤ) (i : ℕ) : List ℤ :=
  let idx := i % cs.length
  if 0 < diff then cs.set idx (cs.getD idx 0 + 1)
  else if diff < 0 ∧ 0 < cs.getD idx 0 then cs.set idx (cs.getD idx 0 - 1)
  else cs

/-- The adjustment phase of `generate_task_list`: `diff = count - sum(curr_counts)`
followed by `for i in range(abs(diff))`. When `curr_counts` is empty and
`diff ≠ 0`, Python raises `ZeroDivisionError` from `idx = i % len(curr_counts)`. -/
def adjust (count : ℤ) (cs : List ℤ) : Except String (List ℤ) :=
  let diff := count - cs.sum
  if cs.length = 0 ∧ diff ≠ 0 then Except.error "ZeroDivisionError"
  else Except.ok ((List.range diff.natAbs).foldl (adjustStep diff) cs)

/-- The tasks contributed by one job-mix entry: compute `curr_counts`,
adjust, then materialize `instance_count` copies of each variant
(`for _ in range(instance_count)`: a negative count contributes none). -/
def entry_tasks (jd : JobDef) : Except String (List Task) :=
  match curr_counts jd.count jd.durations with
  | Except.error e => Except.error e
  | Except.ok cc =>
      match adjust jd.count cc with
      | Except.error e => Except.error e
      | Except.ok cc2 =>
          Except.ok ((jd.durations.zip cc2).flatMap
            (fun p => List.replicate p.2.toNat { nodes := jd.nodes, duration := p.1.minutes }))

/-- The `data` list of `generate_task_list` before the final shuffle:
entries are processed in order and their tasks appended. -/
def generate_task_data : List JobDef → Except String (List Task)
  | [] => Except.ok []
  | jd :: rest =>
      match entry_tasks jd with
      | Except.error e => Except.error e
      | Except.ok ts =>
          match generate_task_data rest with
          | Except.error e => Except.error e
          | Except.ok more => Except.ok (ts ++ more)

/-- `generate_task_list`, with `random.shuffle` abstracted as an explicit
`shuffle` function: the in-place uniform shuffle permutes the list, so
theorems take `∀ l, (shuffle l).Perm l` as a hypothesis and concrete
evaluations instantiate `shuffle` with `id`. -/
def generate_task_list (shuffle : List Task → List Task) (job_defs : List JobDef) :
    Except String (List Task) :=
  (generate_task_data job_defs).map shuffle

/-- One insertion of `get_duration_template_map`'s inner loop:
`if minutes not in templates: templates[minutes] = f"job_{minutes}min.slurm"`
(the duration's first occurrence wins; keys are never updated). -/
def template_add (t : List (ℤ × String)) (d : DurationVariant) : List (ℤ × String) :=
  if (t.lookup d.minutes).isSome then t
  else t ++ [(d.minutes, "job_" ++ toString d.minutes ++ "min.slurm")]

/-- `get_duration_template_map`: builds the `{minutes: "job_<minutes>min.slurm"}`
dict from the configuration. The Python dict (insertion-ordered, keys
inserted at most once) is embedded as an association list with first-match
lookup. -/
def get_duration_template_map (job_defs : List JobDef) : List (ℤ × String) :=
  job_defs.foldl (fun templates job => job.durations.foldl template_add templates) []

/-- The outcome of the external `sbatch` call: its return code and the
whitespace-split tokens of its stdout (`result.stdout.strip().split()`). -/
structure SbatchResult where
  returncode : ℤ
  stdoutTokens : List String
deriving DecidableEq, Repr

/-- `submit_job`: select the slurm script for the duration; if no template
exists return `(None, None)`; otherwise run `sbatch` (outcome supplied as
`res`): on return code 0 the job id is the first stdout token (Python would
raise `IndexError` on empty output), otherwise return `(None, script_file)`. -/
def submit_job (duration_min : ℤ) (slurm_templates : List (ℤ × String)) (res : SbatchResult) :
    Except String (Option String × Option String) :=
  match slurm_templates.lookup duration_min with
  | none => Except.ok (none, none)
  | some script_file =>
      if res.returncode = 0 then
        match res.stdoutTokens with
        | [] => Except.error "IndexError"
        | t :: _ => Except.ok (some t, some script_file)
      else Except.ok (none, some script_file)

/-- The outcome of the external `squeue` call: return code and the
whitespace-split tokens of each stdout line. -/
structure SqueueResult where
  returncode : ℤ
  lines : List (List String)
deriving DecidableEq, Repr

/-- One entry of the list built by `check_active_jobs`. -/
structure ActiveJob where
  jobid : String
  nodes : ℤ
  state : String
deriving DecidableEq, Repr

/-- `check_active_jobs`: on a zero return code, keep every line with at least
3 fields whose third field is `RUNNING` or `PENDING`; otherwise no jobs.
`parseInt` stands for Python's `int()` on the (numeric) node-count field. -/
def check_active_jobs (parseInt : String → ℤ) (r : SqueueResult) : List ActiveJob :=
  if r.returncode = 0 then
    r.lines.filterMap
      (fun parts =>
        if 3 ≤ parts.length ∧ (parts.getD 2 "" = "RUNNING" ∨ parts.getD 2 "" = "PENDING") then
          some { jobid := parts.getD 0 "", nodes := parseInt (parts.getD 1 ""),
                 state := parts.getD 2 "" }
        else none)
  else []

/-- `get_current_used_nodes`: sum the node counts of the active jobs whose
state is `RUNNING`. -/
def get_current_used_nodes (parseInt : String → ℤ) (r : SqueueResult) : ℤ :=
  (check_active_jobs parseInt r).foldl
    (fun used job => if job.state = "RUNNING" then used + job.nodes else used) 0

/-- The outcome of the external `sacct` call: return code and the
whitespace-split tokens of each stdout line. -/
structure SacctResult where
  returncode : ℤ
  lines : List (List String)
deriving DecidableEq, Repr

/-- Assignment `finished_dict[jid] = v` on a Python dict embedded as an
association list: update in place if the key exists, else append. -/
def dictSet (d : List (String × Bool)) (k : String) (v : Bool) : List (String × Bool) :=
  if d.any (fun p => p.1 == k) then d.map (fun p => if p.1 == k then (k, v) else p)
  else d ++ [(k, v)]

/-- One line of the `sacct` parsing loop of `check_jobs_finished`: lines with
at least two fields whose job id has no dot and is among the queried ids set
`finished_dict[jid] = (state == "COMPLETED")`. -/
def sacct_step (jobids : List String) (d : List (String × Bool)) (parts : List String) :
    List (String × Bool) :=
  if 2 ≤ parts.length ∧ ¬ (parts.getD 0 "").contains '.' ∧ parts.getD 0 "" ∈ jobids then
    dictSet d (parts.getD 0 "") (parts.getD 1 "" == "COMPLETED")
  else d

/-- One step of the final loop of `check_jobs_finished`: a queried job id
that is not yet a key of the dict is mapped to `False`
(`if jid not in finished_dict: finished_dict[jid] = False`). -/
def fill_step (d : List (String × Bool)) (jid : String) : List (String × Bool) :=
  if d.any (fun p => p.1 == jid) then d else d ++ [(jid, false)]

/-- `check_jobs_finished`: empty query returns the empty dict; otherwise
parse the `sacct` output (only when its return code is 0), then map every
queried job id that was not seen to `False`. -/
def check_jobs_finished (jobids : List String) (r : SacctResult) : List (String × Bool) :=
  if jobids = [] then []
  else
    let parsed := (if r.returncode = 0 then r.lines else []).foldl (sacct_step jobids) []
    jobids.foldl fill_step parsed

/-- A `job_info` record appended to `submitted_jobs` at submission time.
`submit_time` is the (abstract) wall-clock instant of the submission. -/
structure JobInfo where
  jobid : String
  nodes : ℤ
  duration : ℤ
  submit_time : ℚ
  script_file : String
deriving DecidableEq, Repr

/-- `sum_Nj_Tj`: total node-seconds of the completed jobs,
`Nj * (duration * 60)` summed (`main`, lines 388-394). -/
def sum_Nj_Tj (finished_job_details : List JobInfo) : ℤ :=
  (finished_job_details.map (fun j => j.nodes * (j.duration * 60))).sum

/-- `resource_utilization = (sum_Nj_Tj / (N_total * T_total)) * 100 if
(N_total * T_total) > 0 else 0` (`main`, line 397). -/
def resource_utilization (s : ℤ) (nTotal : ℤ) (tTotal : ℚ) : ℚ :=
  if 0 < (nTotal : ℚ) * tTotal then ((s : ℚ) / ((nTotal : ℚ) * tTotal)) * 100 else 0

/-- `system_throughput = M / T if T > 0 else 0` (`main`, line 399). -/
def system_throughput (m : ℤ) (t : ℚ) : ℚ :=
  if 0 < t then (m : ℚ) / t else 0

/-- The metric computation of `main` (lines 383-399): from the configured
test length in hours, the node total and the completed-job records, compute
`(system_throughput, resource_utilization)`; `T` is derived from
`total_test_seconds = test_hours * 60 * 60` and `T_total` is that same
second count. -/
def computeMetrics (test_hours : ℚ) (total_nodes : ℤ) (finished_job_details : List JobInfo) :
    ℚ × ℚ :=
  let total_test_seconds := test_hours * 60 * 60
  let t := total_test_seconds / 3600
  let m : ℤ := finished_job_details.length
  (system_throughput m t, resource_utilization (sum_Nj_Tj finished_job_details) total_nodes
    total_test_seconds)

/-- The specification's throughput formula, stated from its words: `M / T`
where `T` is the configured window length in hours, and 0 if `T ≤ 0`. -/
def spec_throughput (m : ℤ) (test_hours : ℚ) : ℚ :=
  if test_hours ≤ 0 then 0 else (m : ℚ) / test_hours

/-- The specification's utilization formula, stated from its words:
`100 × Σ(nodes_j × duration_minutes_j × 60) / (total_nodes × window_seconds)`,
and 0 if the denominator is `≤ 0`. -/
def spec_utilization (total_nodes : ℤ) (window_seconds : ℚ)
    (finished : List JobInfo) : ℚ :=
  let sigma : ℚ := (finished.map (fun j => (j.nodes : ℚ) * ((j.duration : ℚ) * 60))).sum
  let denom := (total_nodes : ℚ) * window_seconds
  if denom ≤ 0 then 0 else 100 * sigma / denom

/-- `available_nodes = total_nodes - used_nodes` (`main`, line 327). -/
def available_nodes (total_nodes used_nodes : ℤ) : ℤ :=
  total_nodes - used_nodes

/-- Observable interactions of one admission-loop iteration with the external
collaborators, recorded as history: a submission attempt (the `submit_job`
call, with the used-node count that the capacity check saw and the returned
job id, if any), or a capacity backoff (no submission, randomized wait). -/
inductive LoopEvent where
  | attempt (nodes duration : ℤ) (used : ℤ) (jobid : Option String)
  | backoff (used : ℤ) (wait : ℚ)
deriving DecidableEq, Repr

/-- The state of the admission loop of `main`: the wall clock, the task
cursor, the `submitted_jobs` accumulator, the emitted diagnostics, and the
history of collaborator interactions. -/
structure LoopState where
  now : ℚ
  task_index : ℕ
  submitted : List JobInfo
  log : List String
  events : List LoopEvent
deriving DecidableEq, Repr

/-- The run configuration consumed by the admission loop. -/
structure LoopCfg where
  end_time : ℚ
  total_nodes : ℤ
  task_list : List Task
  templates : List (ℤ × String)
deriving DecidableEq, Repr

/-- One iteration of the admission loop body (`main`, lines 320-353), taken
when the `while` guard `time.time() < end_time and task_index < num_tasks`
holds. The used-node answer of `squeue`, the `sbatch` outcome and the
randomized backoff length are supplied by the environment. Time advances by
the explicit sleeps: 1 second after a submission attempt, the backoff length
otherwise; the submission timestamp (`datetime.now()`) is the iteration's
clock value. -/
def loopBody (cfg : LoopCfg) (s : LoopState) (used : ℤ) (sb : SbatchResult) (bwait : ℚ) :
    Except String LoopState :=
  let task := cfg.task_list.getD s.task_index ⟨0, 0⟩
  if task.nodes ≤ available_nodes cfg.total_nodes used then
    match submit_job task.duration cfg.templates sb with
    | Except.error e => Except.error e
    | Except.ok (some jobid, script_file) =>
        Except.ok
          { now := s.now + 1, task_index := s.task_index + 1,
            submitted := s.submitted ++
              [{ jobid := jobid, nodes := task.nodes, duration := task.duration,
                 submit_time := s.now, script_file := script_file.getD "" }],
            log := s.log,
            events := s.events ++ [LoopEvent.attempt task.nodes task.duration used (some jobid)] }
    | Except.ok (none, script_file) =>
        Except.ok
          { now := s.now + 1, task_index := s.task_index,
            submitted := s.submitted,
            log := s.log ++ ["submit failed, script: " ++ script_file.getD "None"],
            events := s.events ++ [LoopEvent.attempt task.nodes task.duration used none] }
  else
    Except.ok
      { now := s.now + bwait, task_index := s.task_index, submitted := s.submitted,
        log := s.log,
        events := s.events ++ [LoopEvent.backoff used bwait] }

/-- The admission loop's transition relation: the `while` guard holds and one
body iteration runs without raising, for some collaborator responses, with
the randomized backoff within its `random.uniform(5, 10)` bounds. -/
def LoopStep (cfg : LoopCfg) (s s' : LoopState) : Prop :=
  s.now < cfg.end_time ∧ s.task_index < cfg.task_list.length ∧
    ∃ (used : ℤ) (sb : SbatchResult) (bwait : ℚ),
      5 ≤ bwait ∧ bwait ≤ 10 ∧ loopBody cfg s used sb bwait = Except.ok s'

/-- Reachability under the admission loop from a given state. -/
def Reachable (cfg : LoopCfg) : LoopState → LoopState → Prop :=
  Relation.ReflTransGen (LoopStep cfg)

/-- The loop's starting state at clock value `start`: no tasks submitted,
cursor at the head of the task list. -/
def initState (start : ℚ) : LoopState :=
  { now := start, task_index := 0, submitted := [], log := [], events := [] }

/-- A job mix exercising the rounding-adjustment loop: one entry with
`count = 2` and four duration variants of ratio 3 : 4 : 4 : 4. -/
def C1_job_defs : List JobDef :=
  [{ nodes := 1, count := 2,
     durations := [⟨5, 3⟩, ⟨10, 4⟩, ⟨15, 4⟩, ⟨20, 4⟩] }]

/-- A job mix whose only entry has a single duration variant of ratio 0. -/
def C2_job_defs : List JobDef :=
  [{ nodes := 1, count := 1, durations := [⟨5, 0⟩] }]

/-- Four completed jobs with node counts 1, 2, 1, 2 and duration 10 minutes
each (the spec's metrics scenario). -/
def C3_finished_jobs : List JobInfo :=
  [⟨"a", 1, 10, 0, ""⟩, ⟨"b", 2, 10, 0, ""⟩, ⟨"c", 1, 10, 0, ""⟩, ⟨"d", 2, 10, 0, ""⟩]

/-- A small run configuration for concrete loop traces: a 100-second window,
4 nodes, one 2-node 5-minute task, and its template. -/
def wCfg : LoopCfg :=
  { end_time := 100, total_nodes := 4, task_list := [⟨2, 5⟩],
    templates := [(5, "job_5min.slurm")] }

/-- A successful `sbatch` outcome producing job id `123`. -/
def wSb : SbatchResult := ⟨0, ["123"]⟩

/-- A failed `sbatch` outcome (non-zero return code). -/
def wSbFail : SbatchResult := ⟨1, []⟩

/-- The loop state after one successful submission of `wCfg`'s task at
clock 0 with 0 used nodes. -/
def wState1 : LoopState :=
  { now := 1, task_index := 1,
    submitted := [{ jobid := "123", nodes := 2, duration := 5, submit_time := 0,
                    script_file := "job_5min.slurm" }],
    log := [],
    events := [LoopEvent.attempt 2 5 0 (some "123")] }

/-- The loop state after a failed submission attempt of `wCfg`'s task at
clock 0 with 0 used nodes. -/
def wFailState : LoopState :=
  { now := 1, task_index := 0, submitted := [],
    log := ["submit failed, script: job_5min.slurm"],
    events := [LoopEvent.attempt 2 5 0 none] }

/-- A job mix with a single entry of two 2-node 5-minute tasks (one
duration variant of ratio 1). -/
def W10_defs : List JobDef :=
  [{ nodes := 2, count := 2, durations := [⟨5, 1⟩] }]

/-!
## Theorems settling the claims
-/

/-- C1 (code bug): the round-then-adjust step does not always resolve the
rounding discrepancy. For the job mix `C1_job_defs` (one entry, `count = 2`,
ratios 3 : 4 : 4 : 4) the rounded per-variant counts are `[0, 1, 1, 1]`,
the adjustment loop's single decrement lands on the zero slot and is
skipped, and `generate_task_list` returns 3 tasks although
`Σ entry.count = 2`. -/
theorem generate_task_list_count_not_conserved :
    generate_task_list id C1_job_defs =
      Except.ok [⟨1, 10⟩, ⟨1, 15⟩, ⟨1, 20⟩]
    ∧ (C1_job_defs.map JobDef.count).sum = 2 := by
  constructor
  · have h1 : pyRound (2 / 5) = 0 :=
      pyRound_of_lt_half (q := 2 / 5) (n := 0) (by norm_num) (by norm_num)
    have h2 : pyRound (8 / 15) = 1 := by
      have h := pyRound_of_gt_half (q := 8 / 15) (n := 0) (by norm_num) (by norm_num)
      simpa using h
    norm_num [generate_task_list, C1_job_defs, generate_task_data, entry_tasks,
      curr_counts, ratio_counts, total_ratio, adjust, h1, h2]
    decide
  · decide

/-- C2 (code bug): an entry whose duration-variant ratios are all 0 does not
contribute zero tasks silently; the division `count * ratio / total_ratio`
raises `ZeroDivisionError` in Python, and the embedding returns that
error. -/
theorem generate_task_list_zero_ratios_raise :
    generate_task_list id C2_job_defs = Except.error "ZeroDivisionError" := by
  norm_num [generate_task_list, C2_job_defs, generate_task_data, entry_tasks,
    curr_counts, ratio_counts, total_ratio]

/-- C3: the computed metrics agree with the specification's formulas —
throughput is `M / T` with `T` the configured window length in hours (0 when
`T ≤ 0`) and utilization is `100 × Σ(nodes × minutes × 60) /
(total_nodes × window_seconds)` (0 when the denominator is not positive) —
and on the 4-job scenario (nodes 1, 2, 1, 2, all 10 minutes, 8 nodes,
1-hour window) they evaluate to 4.0 jobs/hour and 12.5 %. -/
theorem computeMetrics_spec :
    (∀ (th : ℚ) (tn : ℤ) (fjobs : List JobInfo),
      computeMetrics th tn fjobs =
        (spec_throughput fjobs.length th, spec_utilization tn (th * 3600) fjobs))
    ∧ computeMetrics 1 8 C3_finished_jobs = (4, 25/2) := by
  constructor
  · intro th tn fjobs
    have ht : th * 60 * 60 / 3600 = th := by
      field_simp
      ring
    have hs : ((sum_Nj_Tj fjobs : ℤ) : ℚ) =
        (fjobs.map (fun j => (j.nodes : ℚ) * ((j.duration : ℚ) * 60))).sum := by
      unfold sum_Nj_Tj
      push_cast
      rw [List.map_map]
      refine congrArg List.sum (List.map_congr_left ?_)
      intro j _
      simp only [Function.comp]
      push_cast
      ring
    unfold computeMetrics spec_throughput spec_utilization system_throughput
      resource_utilization
    simp only [ht]
    rw [Prod.mk.injEq]
    constructor
    · split_ifs with h1 h2 <;> first | (exfalso; linarith) | rfl
    · have hd : th * 60 * 60 = th * 3600 := by ring
      rw [hd, hs]
      split_ifs with h1 h2 <;> first | (exfalso; linarith) | rfl | ring
  · norm_num [computeMetrics, C3_finished_jobs, system_throughput,
      resource_utilization, sum_Nj_Tj]

/-- C4: in every state the admission loop can reach, every `SubmittedJob`
record carries a submit timestamp strictly earlier than the configured
window end: the loop body only runs when the `while` guard
`time.time() < end_time` holds, and the record's timestamp is that
iteration's clock value. -/
theorem submitted_before_deadline (cfg : LoopCfg) (start : ℚ) (s : LoopState)
    (h : Reachable cfg (initState start) s) :
    ∀ j ∈ s.submitted, j.submit_time < cfg.end_time := by
  induction h with
  | refl =>
      intro j hj
      simp [initState] at hj
  | tail hab hbc ih =>
      obtain ⟨hnow, hidx, used, sb, bwait, hb1, hb2, hbody⟩ := hbc
      intro j hj
      simp only [loopBody] at hbody
      split at hbody
      · split at hbody
        · simp at hbody
        · rw [Except.ok.injEq] at hbody
          subst hbody
          simp only [List.mem_append, List.mem_singleton] at hj
          rcases hj with hj | hj
          · exact ih j hj
          · subst hj
            simpa using hnow
        · rw [Except.ok.injEq] at hbody
          subst hbody
          exact ih j hj
      · rw [Except.ok.injEq] at hbody
        subst hbody
        exact ih j hj

/-- Witness for C4: a concrete one-step trace submitting `wCfg`'s task at
clock 0, whose submitted record is timestamped before the window end. -/
theorem submitted_before_deadline_witness :
    Reachable wCfg (initState 0) wState1 ∧
      ∀ j ∈ wState1.submitted, j.submit_time < wCfg.end_time := by
  have hreach : Reachable wCfg (initState 0) wState1 := by
    refine Relation.ReflTransGen.single
      ⟨by norm_num [wCfg, initState], by simp [wCfg, initState], 0, wSb, 5,
        by norm_num, by norm_num, ?_⟩
    norm_num [loopBody, wCfg, initState, submit_job, available_nodes, wSb, wState1]
  exact ⟨hreach, submitted_before_deadline wCfg 0 wState1 hreach⟩

/-- C5: in every reachable state, every recorded submission attempt (the
`submit_job` call, accepted by the capacity check, whether or not the
collaborator then returned a job id) satisfied
`task.nodes ≤ total_nodes - used` with the used-node count observed at that
iteration's check; consequently a task exceeding the available count is
never passed to the submission collaborator. -/
theorem accepted_attempt_within_capacity (cfg : LoopCfg) (start : ℚ) (s : LoopState)
    (h : Reachable cfg (initState start) s) :
    ∀ (n d u : ℤ) (jid : Option String),
      LoopEvent.attempt n d u jid ∈ s.events → n ≤ available_nodes cfg.total_nodes u := by
  induction h with
  | refl =>
      intro n d u jid hj
      simp [initState] at hj
  | tail hab hbc ih =>
      obtain ⟨hnow, hidx, used, sb, bwait, hb1, hb2, hbody⟩ := hbc
      intro n d u jid hj
      simp only [loopBody] at hbody
      split at hbody
      case isTrue htask =>
        split at hbody
        · simp at hbody
        · rw [Except.ok.injEq] at hbody
          subst hbody
          simp only [List.mem_append, List.mem_singleton] at hj
          rcases hj with hj | hj
          · exact ih n d u jid hj
          · cases hj
            exact htask
        · rw [Except.ok.injEq] at hbody
          subst hbody
          simp only [List.mem_append, List.mem_singleton] at hj
          rcases hj with hj | hj
          · exact ih n d u jid hj
          · cases hj
            exact htask
      case isFalse htask =>
        rw [Except.ok.injEq] at hbody
        subst hbody
        simp only [List.mem_append, List.mem_singleton] at hj
        rcases hj with hj | hj
        · exact ih n d u jid hj
        · cases hj

/-- Witness for C5: on the concrete one-step trace, the recorded attempt
(2 nodes with 0 used of 4) satisfied the capacity condition. -/
theorem accepted_attempt_within_capacity_witness :
    Reachable wCfg (initState 0) wState1 ∧
      ∀ (n d u : ℤ) (jid : Option String),
        LoopEvent.attempt n d u jid ∈ wState1.events →
          n ≤ available_nodes wCfg.total_nodes u := by
  have hreach : Reachable wCfg (initState 0) wState1 := by
    refine Relation.ReflTransGen.single
      ⟨by norm_num [wCfg, initState], by simp [wCfg, initState], 0, wSb, 5,
        by norm_num, by norm_num, ?_⟩
    norm_num [loopBody, wCfg, initState, submit_job, available_nodes, wSb, wState1]
  exact ⟨hreach, accepted_attempt_within_capacity wCfg 0 wState1 hreach⟩

theorem used_nodes_foldl (l : List ActiveJob) (init : ℤ) :
    l.foldl (fun used job => if job.state = "RUNNING" then used + job.nodes else used) init
      = init + ((l.filter (fun j => j.state == "RUNNING")).map ActiveJob.nodes).sum := by
  induction l generalizing init with
  | nil => simp
  | cons a l ih =>
      simp only [List.foldl_cons, List.filter_cons]
      by_cases h : a.state = "RUNNING"
      · simp [h, ih, add_assoc]
      · simp [h, ih]

theorem check_active_jobs_filter_running (parseInt : String → ℤ) (r : SqueueResult)
    (hr : r.returncode = 0) :
    ((check_active_jobs parseInt r).filter (fun j => j.state == "RUNNING")).map ActiveJob.nodes
      = (r.lines.filter (fun parts =>
            decide (3 ≤ parts.length) && (parts.getD 2 "" == "RUNNING"))).map
          (fun parts => parseInt (parts.getD 1 "")) := by
  unfold check_active_jobs
  rw [if_pos hr]
  induction r.lines with
  | nil => simp
  | cons p ps ih =>
      simp only [List.getD_eq_getElem?_getD] at ih ⊢
      simp only [List.filterMap_cons, List.filter_cons]
      by_cases h1 : 3 ≤ p.length
      · by_cases h2 : p[2]?.getD "" = "RUNNING"
        · simp [h1, h2, List.filter_cons, ih]
        · by_cases h3 : p[2]?.getD "" = "PENDING"
          · simp [h1, h2, h3, List.filter_cons, ih]
          · simp [h1, h2, h3, ih]
      · simp [h1, ih]

/-- C6: the used-slots query sums the node counts of exactly the well-formed
`squeue` lines in the `RUNNING` state — `PENDING` lines contribute nothing —
and a failed query (non-zero return code) yields 0 used slots instead of an
exception. -/
theorem get_current_used_nodes_spec (parseInt : String → ℤ) (r : SqueueResult) :
    get_current_used_nodes parseInt r =
      if r.returncode = 0 then
        ((r.lines.filter (fun parts =>
            decide (3 ≤ parts.length) && (parts.getD 2 "" == "RUNNING"))).map
          (fun parts => parseInt (parts.getD 1 ""))).sum
      else 0 := by
  unfold get_current_used_nodes
  by_cases hr : r.returncode = 0
  · rw [if_pos hr, used_nodes_foldl, check_active_jobs_filter_running parseInt r hr]
    simp
  · rw [if_neg hr]
    unfold check_active_jobs
    rw [if_neg hr]
    simp

/-- C7: when the capacity check accepts a task but the submission
collaborator returns no job id, the loop keeps the task pointer where it is,
creates no `SubmittedJob` record, emits a diagnostic, and advances the clock
by the same 1-second pacing delay that a successful submission uses. -/
theorem failed_submission_retries (cfg : LoopCfg) (s : LoopState) (used : ℤ)
    (sb : SbatchResult) (bwait : ℚ)
    (hfit : (cfg.task_list.getD s.task_index ⟨0, 0⟩).nodes ≤
      available_nodes cfg.total_nodes used) :
    (∀ (osf : Option String) (s' : LoopState),
      submit_job (cfg.task_list.getD s.task_index ⟨0, 0⟩).duration cfg.templates sb =
          Except.ok (none, osf) →
        loopBody cfg s used sb bwait = Except.ok s' →
        s'.task_index = s.task_index ∧ s'.submitted = s.submitted ∧ s'.now = s.now + 1 ∧
          s'.log = s.log ++ ["submit failed, script: " ++ osf.getD "None"])
    ∧ (∀ (jid : String) (osf : Option String) (s' : LoopState),
      submit_job (cfg.task_list.getD s.task_index ⟨0, 0⟩).duration cfg.templates sb =
          Except.ok (some jid, osf) →
        loopBody cfg s used sb bwait = Except.ok s' →
        s'.now = s.now + 1) := by
  constructor
  · intro osf s' hsub hbody
    simp only [loopBody] at hbody
    rw [if_pos hfit, hsub] at hbody
    rw [Except.ok.injEq] at hbody
    subst hbody
    exact ⟨rfl, rfl, rfl, rfl⟩
  · intro jid osf s' hsub hbody
    simp only [loopBody] at hbody
    rw [if_pos hfit, hsub] at hbody
    rw [Except.ok.injEq] at hbody
    subst hbody
    rfl

/-- Witness for C7: a concrete failed attempt (non-zero `sbatch` return
code) leaves the cursor and the submitted list unchanged, logs the
diagnostic and advances the clock by 1. -/
theorem failed_submission_retries_witness :
    ((wCfg.task_list.getD (initState 0).task_index ⟨0, 0⟩).nodes ≤
        available_nodes wCfg.total_nodes 0)
    ∧ submit_job (wCfg.task_list.getD (initState 0).task_index ⟨0, 0⟩).duration wCfg.templates
        wSbFail = Except.ok (none, some "job_5min.slurm")
    ∧ loopBody wCfg (initState 0) 0 wSbFail 5 = Except.ok wFailState
    ∧ (wFailState.task_index = (initState 0).task_index ∧
        wFailState.submitted = (initState 0).submitted ∧
        wFailState.now = (initState 0).now + 1 ∧
        wFailState.log = (initState 0).log ++
          ["submit failed, script: " ++ (some "job_5min.slurm").getD "None"]) := by
  have hfit : (wCfg.task_list.getD (initState 0).task_index ⟨0, 0⟩).nodes ≤
      available_nodes wCfg.total_nodes 0 := by
    norm_num [wCfg, initState, available_nodes]
  have hsub : submit_job (wCfg.task_list.getD (initState 0).task_index ⟨0, 0⟩).duration
      wCfg.templates wSbFail = Except.ok (none, some "job_5min.slurm") := by
    norm_num [wCfg, initState, wSbFail, submit_job]
  have hbody : loopBody wCfg (initState 0) 0 wSbFail 5 = Except.ok wFailState := by
    norm_num [loopBody, wCfg, initState, wSbFail, wFailState, submit_job, available_nodes]
    rfl
  exact ⟨hfit, hsub, hbody,
    (failed_submission_retries wCfg (initState 0) 0 wSbFail 5 hfit).1
      (some "job_5min.slurm") wFailState hsub hbody⟩

/-- C9 (counterexample): the computed `available_nodes` value does NOT clamp
to 0 when the reported used slots exceed the node total — with 4 total nodes
and 6 used it is -2, not 0. -/
theorem available_nodes_goes_negative :
    available_nodes 4 6 = -2 ∧ available_nodes 4 6 ≠ 0 := by
  constructor <;> decide

/-- C9 (amended): `available_nodes` can be negative under external drift,
but the admission decision treats it exactly as a 0 clamp would: when the
used count reaches the node total and the pending task needs at least one
node, the loop takes the backoff branch (no submission attempt, no new
record), and for any positive node request the comparison against the raw
difference agrees with the comparison against `max 0` of it. -/
theorem overcommit_backs_off (cfg : LoopCfg) (s : LoopState) (used : ℤ)
    (sb : SbatchResult) (bwait : ℚ) (s' : LoopState)
    (hnodes : 1 ≤ (cfg.task_list.getD s.task_index ⟨0, 0⟩).nodes)
    (hused : cfg.total_nodes ≤ used)
    (hbody : loopBody cfg s used sb bwait = Except.ok s') :
    s'.submitted = s.submitted ∧ s'.task_index = s.task_index ∧
      s'.events = s.events ++ [LoopEvent.backoff used bwait] ∧
      ∀ n : ℤ, 1 ≤ n →
        ((n ≤ available_nodes cfg.total_nodes used) ↔
          n ≤ max 0 (available_nodes cfg.total_nodes used)) := by
  have hneg : available_nodes cfg.total_nodes used ≤ 0 := by
    unfold available_nodes
    omega
  simp only [loopBody] at hbody
  rw [if_neg (by omega)] at hbody
  rw [Except.ok.injEq] at hbody
  subst hbody
  refine ⟨rfl, rfl, rfl, ?_⟩
  intro n hn
  constructor
  · intro h
    omega
  · intro h
    omega

/-- Witness for C9's amended theorem: with 6 used of 4 total nodes and the
2-node task pending, a concrete iteration backs off without submitting. -/
theorem overcommit_backs_off_witness :
    (1 ≤ (wCfg.task_list.getD (initState 0).task_index ⟨0, 0⟩).nodes)
    ∧ (wCfg.total_nodes ≤ 6)
    ∧ loopBody wCfg (initState 0) 6 wSb 5 =
        Except.ok { now := 0 + 5, task_index := 0, submitted := [], log := [],
                    events := [LoopEvent.backoff 6 5] }
    ∧ ({ now := (0 : ℚ) + 5, task_index := 0, submitted := ([] : List JobInfo),
         log := ([] : List String),
         events := [LoopEvent.backoff 6 5] } : LoopState).submitted =
        (initState 0).submitted := by
  have hnodes : 1 ≤ (wCfg.task_list.getD (initState 0).task_index ⟨0, 0⟩).nodes := by
    norm_num [wCfg, initState]
  have hused : wCfg.total_nodes ≤ (6 : ℤ) := by
    norm_num [wCfg]
  have hbody : loopBody wCfg (initState 0) 6 wSb 5 =
      Except.ok { now := 0 + 5, task_index := 0, submitted := [], log := [],
                  events := [LoopEvent.backoff 6 5] } := by
    norm_num [loopBody, wCfg, initState, wSb, available_nodes]
  exact ⟨hnodes, hused, hbody,
    (overcommit_backs_off wCfg (initState 0) 6 wSb 5 _ hnodes hused hbody).1⟩

theorem mem_dictSet (d : List (String × Bool)) (k : String) (v : Bool) (p : String × Bool)
    (hp : p ∈ dictSet d k v) : p.1 = k ∨ p ∈ d := by
  unfold dictSet at hp
  split at hp
  · obtain ⟨q, hq, hpq⟩ := List.mem_map.mp hp
    by_cases h : q.1 = k
    · rw [if_pos (by simp [h])] at hpq
      left
      rw [← hpq]
    · rw [if_neg (by simp [h])] at hpq
      right
      rw [← hpq]
      exact hq
  · rcases List.mem_append.mp hp with h | h
    · right
      exact h
    · left
      rw [List.mem_singleton.mp h]

theorem sacct_fold_keys (jobids : List String) (lines : List (List String))
    (d : List (String × Bool)) (hd : ∀ p ∈ d, p.1 ∈ jobids) :
    ∀ p ∈ lines.foldl (sacct_step jobids) d, p.1 ∈ jobids := by
  induction lines generalizing d with
  | nil => exact hd
  | cons l ls ih =>
      refine ih _ ?_
      intro p hp
      unfold sacct_step at hp
      split at hp
      case isTrue hcond =>
        rcases mem_dictSet _ _ _ _ hp with h | h
        · rw [h]
          exact hcond.2.2
        · exact hd p h
      case isFalse =>
        exact hd p hp

theorem any_key_fill_mono (js : List String) (d : List (String × Bool)) (k : String)
    (h : d.any (fun p => p.1 == k) = true) :
    (js.foldl fill_step d).any (fun p => p.1 == k) = true := by
  induction js generalizing d with
  | nil => exact h
  | cons j js ih =>
      refine ih _ ?_
      unfold fill_step
      split
      · exact h
      · rw [List.any_append]
        simp [h]

theorem fill_has_key (js : List String) (d : List (String × Bool)) (k : String)
    (h : k ∈ js) :
    (js.foldl fill_step d).any (fun p => p.1 == k) = true := by
  induction js generalizing d with
  | nil => cases h
  | cons j js ih =>
      rcases List.mem_cons.mp h with h | h
      · subst h
        refine any_key_fill_mono js _ k ?_
        unfold fill_step
        split
        case isTrue ha => exact ha
        case isFalse => simp
      · exact ih _ h

theorem mem_fill (js : List String) (d : List (String × Bool)) (p : String × Bool)
    (hp : p ∈ js.foldl fill_step d) : p ∈ d ∨ p.1 ∈ js := by
  induction js generalizing d with
  | nil => exact Or.inl hp
  | cons j js ih =>
      rcases ih _ hp with h | h
      · unfold fill_step at h
        split at h
        · exact Or.inl h
        · rcases List.mem_append.mp h with h2 | h2
          · exact Or.inl h2
          · right
            rw [List.mem_singleton.mp h2]
            simp
      · right
        exact List.mem_cons_of_mem j h

theorem lookup_isSome_of_any (d : List (String × Bool)) (k : String)
    (h : d.any (fun p => p.1 == k) = true) : (d.lookup k).isSome := by
  induction d with
  | nil => simp at h
  | cons q d ih =>
      obtain ⟨a, b⟩ := q
      by_cases hak : a = k
      · subst hak
        simp [List.lookup_cons]
      · simp only [List.any_cons] at h
        rw [Bool.or_eq_true] at h
        have h2 : d.any (fun p => p.1 == k) = true := by
          rcases h with h1 | h1
          · exact absurd (by simpa using h1) hak
          · exact h1
        simp [List.lookup_cons, beq_false_of_ne (Ne.symm hak), ih h2]

theorem mem_of_lookup_eq_some (d : List (String × Bool)) (k : String) (b : Bool)
    (h : d.lookup k = some b) : (k, b) ∈ d := by
  induction d with
  | nil => simp [List.lookup] at h
  | cons q d ih =>
      obtain ⟨a, c⟩ := q
      by_cases hak : k = a
      · subst hak
        rw [List.lookup_cons] at h
        simp only [beq_self_eq_true] at h
        rw [Option.some.injEq] at h
        subst h
        exact List.mem_cons_self _ _
      · rw [List.lookup_cons] at h
        simp only [beq_false_of_ne hak] at h
        exact List.mem_cons_of_mem _ (ih h)

theorem lookup_eq_false_of_all_false (d : List (String × Bool)) (k : String)
    (hall : ∀ p ∈ d, p.1 = k → p.2 = false)
    (hany : d.any (fun p => p.1 == k) = true) : d.lookup k = some false := by
  induction d with
  | nil => simp at hany
  | cons q d ih =>
      obtain ⟨a, b⟩ := q
      by_cases hak : a = k
      · subst hak
        have hb : b = false := hall (a, b) (List.mem_cons_self _ _) rfl
        subst hb
        simp [List.lookup_cons]
      · simp only [List.any_cons] at hany
        rw [Bool.or_eq_true] at hany
        have h2 : d.any (fun p => p.1 == k) = true := by
          rcases hany with h1 | h1
          · exact absurd (by simpa using h1) hak
          · exact h1
        have hall2 : ∀ p ∈ d, p.1 = k → p.2 = false := fun p hp => hall p (List.mem_cons_of_mem _ hp)
        simp [List.lookup_cons, beq_false_of_ne (Ne.symm hak), ih hall2 h2]

theorem sacct_fold_no_key (jobids : List String) (lines : List (List String)) (k : String)
    (d : List (String × Bool))
    (hlines : ∀ parts ∈ lines, parts.getD 0 "" ≠ k)
    (hd : ∀ p ∈ d, p.1 ≠ k) :
    ∀ p ∈ lines.foldl (sacct_step jobids) d, p.1 ≠ k := by
  induction lines generalizing d with
  | nil => exact hd
  | cons l ls ih =>
      refine ih _ (fun parts hp => hlines parts (List.mem_cons_of_mem _ hp)) ?_
      intro p hp
      unfold sacct_step at hp
      split at hp
      case isTrue hcond =>
        rcases mem_dictSet _ _ _ _ hp with h | h
        · rw [h]
          exact hlines l (List.mem_cons_self _ _)
        · exact hd p h
      case isFalse =>
        exact hd p hp

theorem fill_all_false (js : List String) (d : List (String × Bool)) (k : String)
    (hall : ∀ p ∈ d, p.1 = k → p.2 = false) :
    ∀ p ∈ js.foldl fill_step d, p.1 = k → p.2 = false := by
  induction js generalizing d with
  | nil => exact hall
  | cons j js ih =>
      refine ih _ ?_
      intro p hp
      unfold fill_step at hp
      split at hp
      · exact hall p hp
      · rcases List.mem_append.mp hp with h | h
        · exact hall p h
        · intro _
          rw [List.mem_singleton.mp h]

/-- C8: `check_jobs_finished` assigns every queried job handle a boolean:
every queried id has an entry in the returned dict, every key of the dict is
a queried id (domain = queried set), and an id that never appears in the
accounting response is mapped to `False` rather than dropped. -/
theorem check_jobs_finished_total (jobids : List String) (r : SacctResult) :
    (∀ jid ∈ jobids, ((check_jobs_finished jobids r).lookup jid).isSome)
    ∧ (∀ (k : String) (b : Bool), (check_jobs_finished jobids r).lookup k = some b →
        k ∈ jobids)
    ∧ (∀ jid ∈ jobids, (∀ parts ∈ r.lines, parts.getD 0 "" ≠ jid) →
        (check_jobs_finished jobids r).lookup jid = some false) := by
  by_cases hjn : jobids = []
  · subst hjn
    refine ⟨?_, ?_, ?_⟩
    · intro jid hjid
      cases hjid
    · intro k b h
      simp [check_jobs_finished, List.lookup] at h
    · intro jid hjid
      cases hjid
  · unfold check_jobs_finished
    rw [if_neg hjn]
    refine ⟨?_, ?_, ?_⟩
    · intro jid hjid
      exact lookup_isSome_of_any _ _ (fill_has_key jobids _ jid hjid)
    · intro k b h
      have hmem := mem_of_lookup_eq_some _ _ _ h
      rcases mem_fill _ _ _ hmem with h2 | h2
      · exact sacct_fold_keys jobids _ _ (by intro p hp; cases hp) (k, b) h2
      · exact h2
    · intro jid hjid habsent
      have hnokey : ∀ p ∈ (if r.returncode = 0 then r.lines else []).foldl
          (sacct_step jobids) [], p.1 ≠ jid := by
        refine sacct_fold_no_key jobids _ jid [] ?_ ?_
        · intro parts hp
          refine habsent parts ?_
          by_cases hr : r.returncode = 0
          · rw [if_pos hr] at hp
            exact hp
          · rw [if_neg hr] at hp
            cases hp
        · intro p hp
          cases hp
      refine lookup_eq_false_of_all_false _ _ ?_ (fill_has_key jobids _ jid hjid)
      refine fill_all_false jobids _ jid ?_
      intro p hp hk
      exact absurd hk (hnokey p hp)


/-- Witness for C8: querying ids `1` and `2` against a response that only
mentions `1` yields an entry for `2` mapped to `False`, and an entry for
`1`. -/
theorem check_jobs_finished_total_witness :
    (("2" : String) ∈ ["1", "2"])
    ∧ (∀ parts ∈ [["1", "COMPLETED"]], parts.getD 0 "" ≠ "2")
    ∧ ((check_jobs_finished ["1", "2"] ⟨0, [["1", "COMPLETED"]]⟩).lookup "2" = some false)
    ∧ ((check_jobs_finished ["1", "2"] ⟨0, [["1", "COMPLETED"]]⟩).lookup "1").isSome := by
  have h1 : ("2" : String) ∈ ["1", "2"] := by simp
  have h2 : ∀ parts ∈ [["1", "COMPLETED"]], parts.getD 0 "" ≠ "2" := by
    intro parts hp
    rw [List.mem_singleton.mp hp]
    simp
  exact ⟨h1, h2,
    (check_jobs_finished_total ["1", "2"] ⟨0, [["1", "COMPLETED"]]⟩).2.2 "2" h1 h2,
    (check_jobs_finished_total ["1", "2"] ⟨0, [["1", "COMPLETED"]]⟩).1 "1" (by simp)⟩

theorem lookup_isSome_append (t t2 : List (ℤ × String)) (k : ℤ)
    (h : (t.lookup k).isSome) : ((t ++ t2).lookup k).isSome := by
  induction t with
  | nil => simp [List.lookup] at h
  | cons q t ih =>
      obtain ⟨a, b⟩ := q
      by_cases hak : k = a
      · subst hak
        simp [List.lookup_cons]
      · rw [List.lookup_cons] at h
        simp only [beq_false_of_ne hak] at h
        rw [List.cons_append, List.lookup_cons]
        simp only [beq_false_of_ne hak]
        exact ih h

theorem lookup_isSome_append_singleton (t : List (ℤ × String)) (k : ℤ) (s : String) :
    ((t ++ [(k, s)]).lookup k).isSome := by
  induction t with
  | nil => simp [List.lookup_cons]
  | cons q t ih =>
      obtain ⟨a, b⟩ := q
      by_cases hak : k = a
      · subst hak
        simp [List.lookup_cons]
      · rw [List.cons_append, List.lookup_cons]
        simp only [beq_false_of_ne hak]
        exact ih

theorem template_add_mono (t : List (ℤ × String)) (d : DurationVariant) (k : ℤ)
    (h : (t.lookup k).isSome) : ((template_add t d).lookup k).isSome := by
  unfold template_add
  split
  · exact h
  · exact lookup_isSome_append _ _ _ h

theorem template_fold_mono (ds : List DurationVariant) (t : List (ℤ × String)) (k : ℤ)
    (h : (t.lookup k).isSome) : ((ds.foldl template_add t).lookup k).isSome := by
  induction ds generalizing t with
  | nil => exact h
  | cons d ds ih => exact ih _ (template_add_mono t d k h)

theorem template_fold_adds (ds : List DurationVariant) (t : List (ℤ × String))
    (d : DurationVariant) (hd : d ∈ ds) :
    ((ds.foldl template_add t).lookup d.minutes).isSome := by
  induction ds generalizing t with
  | nil => cases hd
  | cons e ds ih =>
      rcases List.mem_cons.mp hd with h | h
      · subst h
        refine template_fold_mono ds _ d.minutes ?_
        unfold template_add
        split
        case isTrue ha => exact ha
        case isFalse => exact lookup_isSome_append_singleton _ _ _
      · exact ih _ h

theorem outer_fold_mono (defs : List JobDef) (t : List (ℤ × String)) (k : ℤ)
    (h : (t.lookup k).isSome) :
    ((defs.foldl (fun templates job => job.durations.foldl template_add templates) t).lookup
      k).isSome := by
  induction defs generalizing t with
  | nil => exact h
  | cons jd defs ih => exact ih _ (template_fold_mono _ _ _ h)

theorem template_map_has_duration (defs : List JobDef) (t : List (ℤ × String))
    (jd : JobDef) (d : DurationVariant) (hjd : jd ∈ defs) (hd : d ∈ jd.durations) :
    ((defs.foldl (fun templates job => job.durations.foldl template_add templates) t).lookup
      d.minutes).isSome := by
  induction defs generalizing t with
  | nil => cases hjd
  | cons e defs ih =>
      rcases List.mem_cons.mp hjd with h | h
      · subst h
        exact outer_fold_mono defs _ _ (template_fold_adds _ _ _ hd)
      · exact ih _ h

theorem mem_entry_tasks (jd : JobDef) (ts : List Task) (t : Task)
    (h : entry_tasks jd = Except.ok ts) (ht : t ∈ ts) :
    ∃ d ∈ jd.durations, t = ⟨jd.nodes, d.minutes⟩ := by
  unfold entry_tasks at h
  split at h
  · simp at h
  · split at h
    · simp at h
    · rw [Except.ok.injEq] at h
      subst h
      obtain ⟨p, hpz, hrep⟩ := List.mem_flatMap.mp ht
      have hzl := (List.of_mem_zip hpz).1
      have heq := List.eq_of_mem_replicate hrep
      exact ⟨p.1, hzl, heq⟩

theorem mem_generate_task_data (defs : List JobDef) (ts : List Task) (t : Task)
    (h : generate_task_data defs = Except.ok ts) (ht : t ∈ ts) :
    ∃ jd ∈ defs, ∃ d ∈ jd.durations, t = ⟨jd.nodes, d.minutes⟩ := by
  induction defs generalizing ts with
  | nil =>
      unfold generate_task_data at h
      rw [Except.ok.injEq] at h
      subst h
      cases ht
  | cons jd defs ih =>
      unfold generate_task_data at h
      split at h
      next e heq => simp at h
      next ts1 heq1 =>
        split at h
        next e2 heq2 => simp at h
        next ts2 heq2 =>
          rw [Except.ok.injEq] at h
          subst h
          rcases List.mem_append.mp ht with h2 | h2
          · obtain ⟨d, hd, heq⟩ := mem_entry_tasks jd ts1 t heq1 h2
            exact ⟨jd, List.mem_cons_self _ _, d, hd, heq⟩
          · obtain ⟨jd2, hjd2, d, hd, heq⟩ := ih ts2 heq2 h2
            exact ⟨jd2, List.mem_cons_of_mem _ hjd2, d, hd, heq⟩

/-- C10: every task produced by `generate_task_list` has its duration
registered in the template map built by `get_duration_template_map` from the
same job-mix specification, so `submit_job`'s template-not-found early
return `(None, None)` is unreachable during the admission loop. -/
theorem generated_tasks_have_templates (job_defs : List JobDef)
    (shuffle : List Task → List Task) (hsh : ∀ l, (shuffle l).Perm l)
    (tasks : List Task) (hgen : generate_task_list shuffle job_defs = Except.ok tasks) :
    ∀ t ∈ tasks, ((get_duration_template_map job_defs).lookup t.duration).isSome
      ∧ ∀ sb : SbatchResult,
          submit_job t.duration (get_duration_template_map job_defs) sb ≠
            Except.ok (none, none) := by
  unfold generate_task_list at hgen
  cases hdata : generate_task_data job_defs with
  | error e =>
      rw [hdata] at hgen
      simp [Except.map] at hgen
  | ok data =>
      rw [hdata] at hgen
      simp only [Except.map] at hgen
      rw [Except.ok.injEq] at hgen
      intro t ht
      rw [← hgen] at ht
      have ht2 : t ∈ data := ((hsh data).mem_iff).mp ht
      obtain ⟨jd, hjd, d, hd, hteq⟩ := mem_generate_task_data job_defs data t hdata ht2
      have hdur : t.duration = d.minutes := by rw [hteq]
      have hlk : ((get_duration_template_map job_defs).lookup t.duration).isSome := by
        rw [hdur]
        unfold get_duration_template_map
        exact template_map_has_duration job_defs [] jd d hjd hd
      refine ⟨hlk, ?_⟩
      intro sb
      obtain ⟨s, hs⟩ := Option.isSome_iff_exists.mp hlk
      have hstep : submit_job t.duration (get_duration_template_map job_defs) sb =
          (if sb.returncode = 0 then
            match sb.stdoutTokens with
            | [] => Except.error "IndexError"
            | a :: _ => Except.ok (some a, some s)
          else Except.ok (none, some s)) := by
        unfold submit_job
        rw [hs]
      rw [hstep]
      split_ifs with hrc
      · cases sb.stdoutTokens <;> simp
      · simp


/-- Witness for C10: for the concrete mix `W10_defs` (two 2-node 5-minute
tasks), generation succeeds, and the generated duration 5 resolves to a
template, so `submit_job` never takes the not-found branch. -/
theorem generated_tasks_have_templates_witness :
    (∀ l : List Task, (id l).Perm l)
    ∧ generate_task_list id W10_defs = Except.ok [⟨2, 5⟩, ⟨2, 5⟩]
    ∧ (((get_duration_template_map W10_defs).lookup (5 : ℤ)).isSome
        ∧ ∀ sb : SbatchResult,
            submit_job 5 (get_duration_template_map W10_defs) sb ≠
              Except.ok (none, none)) := by
  have hsh : ∀ l : List Task, (id l).Perm l := fun l => List.Perm.refl l
  have h2 : pyRound 2 = 2 :=
    pyRound_of_lt_half (q := 2) (n := 2) (by norm_num) (by norm_num)
  have hgen : generate_task_list id W10_defs = Except.ok [⟨2, 5⟩, ⟨2, 5⟩] := by
    norm_num [generate_task_list, W10_defs, generate_task_data, entry_tasks,
      curr_counts, ratio_counts, total_ratio, adjust, h2]
    decide
  have hmem : (⟨2, 5⟩ : Task) ∈ [(⟨2, 5⟩ : Task), ⟨2, 5⟩] := by simp
  exact ⟨hsh, hgen,
    generated_tasks_have_templates W10_defs id hsh [⟨2, 5⟩, ⟨2, 5⟩] hgen ⟨2, 5⟩ hmem⟩

end JobThroughput
